import Mathlib

/-!
Verification of the compliance/status evaluation and notification-batching
core of `healthcare_dashboard.py`.

Stored date values are modelled as lists of characters (`Str`), because the
program stores dates as TEXT in SQLite and the dashboard queries compare them
byte-wise (memcmp), while the per-record evaluators parse them with
`datetime.strptime(s, "%Y-%m-%d")` and compare the resulting calendar dates.
Calendar dates are modelled by the `Date` structure together with `toDays`
(the proleptic Gregorian ordinal, as used by Python `date` subtraction).
-/

/-- Stored text values (SQLite TEXT): a list of characters. -/
abbrev Str := List Char

/-- Byte-wise (memcmp-style) strict comparison used by SQLite when it compares
two TEXT values such as `certification_expiry <= ?`. -/
def textLt : Str → Str → Bool
  | [], [] => false
  | [], _ :: _ => true
  | _ :: _, [] => false
  | a :: as, b :: bs => Nat.blt a.toNat b.toNat || (a.toNat == b.toNat && textLt as bs)

/-- Byte-wise non-strict comparison (`a <= b` in a SQLite WHERE clause). -/
def textLe (a b : Str) : Bool := !(textLt b a)

/-- A calendar date as it appears after a successful `strptime`: year, month, day. -/
structure Date where
  y : Nat
  m : Nat
  d : Nat
deriving DecidableEq, Repr

/-- Gregorian leap-year test, as implemented by Python `datetime`. -/
def isLeap (y : Nat) : Bool := (y % 4 == 0 && y % 100 != 0) || y % 400 == 0

/-- Number of days in month `m` of year `y` (Python `calendar` rules). -/
def daysInMonth (y m : Nat) : Nat :=
  if m = 2 then (if isLeap y then 29 else 28)
  else if m = 4 ∨ m = 6 ∨ m = 9 ∨ m = 11 then 30
  else 31

/-- The validity condition `datetime.date` enforces on (year, month, day);
the upper year bound 9999 is tracked separately where string rendering needs it. -/
def Date.Valid (a : Date) : Prop :=
  1 ≤ a.y ∧ 1 ≤ a.m ∧ a.m ≤ 12 ∧ 1 ≤ a.d ∧ a.d ≤ daysInMonth a.y a.m

instance (a : Date) : Decidable a.Valid := by
  unfold Date.Valid
  infer_instance

/-- Cumulative days before month `m` in a non-leap year (index 1–12; 13 gives 365). -/
def monthOffset (m : Nat) : Nat :=
  match m with
  | 1 => 0
  | 2 => 31
  | 3 => 59
  | 4 => 90
  | 5 => 120
  | 6 => 151
  | 7 => 181
  | 8 => 212
  | 9 => 243
  | 10 => 273
  | 11 => 304
  | 12 => 334
  | _ => 365

/-- Days in year `y` strictly before the first day of month `m`. -/
def daysBeforeMonth (y m : Nat) : Nat :=
  monthOffset m + (if 2 < m && isLeap y then 1 else 0)

/-- Days strictly before January 1 of year `y` in the proleptic Gregorian calendar. -/
def daysBeforeYear (y : Nat) : Nat :=
  365 * (y - 1) + ((y - 1) / 4 - (y - 1) / 100 + (y - 1) / 400)

/-- Proleptic Gregorian ordinal of a date (Python `date.toordinal`); date
subtraction `(e - t).days` in the source is `(toDays e : Int) - toDays t`. -/
def toDays (a : Date) : Nat :=
  daysBeforeYear a.y + daysBeforeMonth a.y a.m + a.d

/-- The day after a given date (used to model `timedelta(days=n)` addition). -/
def nextDay (a : Date) : Date :=
  if a.d < daysInMonth a.y a.m then ⟨a.y, a.m, a.d + 1⟩
  else if a.m < 12 then ⟨a.y, a.m + 1, 1⟩
  else ⟨a.y + 1, 1, 1⟩

/-- `today + timedelta(days=n)` from the source, modelled as iterated `nextDay`. -/
def addDays (a : Date) : Nat → Date
  | 0 => a
  | n + 1 => nextDay (addDays a n)

/-- The decimal digit character for `k` (`0 ≤ k ≤ 9`). -/
def dc (k : Nat) : Char := Char.ofNat (48 + k)

/-- Two-digit zero-padded rendering of a month or day (as in `date.isoformat`). -/
def pad2 (n : Nat) : Str := [dc (n / 10), dc (n % 10)]

/-- Four-digit zero-padded rendering of a year (as in `date.isoformat`). -/
def pad4 (n : Nat) : Str := [dc (n / 1000), dc (n / 100 % 10), dc (n / 10 % 10), dc (n % 10)]

/-- `date.isoformat()`: the canonical `YYYY-MM-DD` rendering of a date. -/
def renderDate (a : Date) : Str :=
  pad4 a.y ++ '-' :: pad2 a.m ++ '-' :: pad2 a.d

/-- Split a character list at every dash, like `"%Y-%m-%d"` field separation. -/
def splitDashes : Str → List Str
  | [] => [[]]
  | c :: cs =>
    let rest := splitDashes cs
    if c = '-' then [] :: rest
    else
      match rest with
      | [] => [[c]]
      | g :: gs => (c :: g) :: gs

/-- Numeric value of a list of decimal digit characters. -/
def digitsVal (cs : Str) : Nat := cs.foldl (fun a c => 10 * a + (c.toNat - 48)) 0

/-- A non-empty, all-digit field, as accepted by a `strptime` numeric directive. -/
def isDigits (cs : Str) : Bool := !cs.isEmpty && cs.all (·.isDigit)

/-- A `%Y` field as CPython `_strptime` matches it: exactly four digits. -/
def parseYearField (cs : Str) : Option Nat :=
  if isDigits cs && cs.length = 4 then some (digitsVal cs) else none

/-- A `%m` field as CPython `_strptime` matches it: one or two digits
(`1[0-2]|0[1-9]|[1-9]`; two-digit shapes outside it, such as "13", leave an
unmatched character and raise in the program, and fail the `m ≤ 12` range
check here). -/
def parseMonthField (cs : Str) : Option Nat :=
  if isDigits cs && cs.length ≤ 2 then some (digitsVal cs) else none

/-- A `%d` field as CPython `_strptime` matches it: one or two digits, or a
space followed by a nonzero digit (`3[01]|[12]\d|0[1-9]|[1-9]| [1-9]`;
two-digit shapes outside the pattern, such as "47", leave an unmatched
character and raise in the program, and fail the `d ≤ daysInMonth` range
check here). -/
def parseDayField (cs : Str) : Option Nat :=
  if isDigits cs && cs.length ≤ 2 then some (digitsVal cs)
  else
    match cs with
    | [' ', c] => if c.isDigit && !(c = '0') then some (c.toNat - 48) else none
    | _ => none

/-- Model of `datetime.strptime(s, "%Y-%m-%d").date()`, following CPython's
`_strptime` field patterns — `%Y` exactly four digits, `%m` one or two digits,
`%d` one or two digits or a space plus a nonzero digit — with the matched
numbers then validated by the `datetime.date` constructor; `none` models the
`ValueError` path. -/
def parseDate (s : Str) : Option Date :=
  match splitDashes s with
  | [ys, ms, ds] =>
    match parseYearField ys, parseMonthField ms, parseDayField ds with
    | some y, some m, some d =>
      if 1 ≤ y && 1 ≤ m && m ≤ 12 && 1 ≤ d && d ≤ daysInMonth y m then
        some ⟨y, m, d⟩
      else none
    | _, _, _ => none
  | _ => none

/-- Certification status values produced in `refresh_staff_table` and
`refresh_training_table` (strings "N/A", "Unknown", "Expired", "Due soon", "Valid"). -/
inductive CertStatus where
  | notApplicable
  | unknown
  | expired
  | dueSoon
  | valid
deriving DecidableEq, Repr

/-- The branch on `delta = (exp_date - today).days` in `refresh_staff_table`
lines 379-385 (and identically in `refresh_training_table` lines 999-1005). -/
def certStatusOfDelta (delta : Int) : CertStatus :=
  if delta < 0 then .expired
  else if delta ≤ 60 then .dueSoon
  else .valid

/-- Certification status of a stored `certification_expiry` value at reference
date `t`, exactly as computed in `refresh_staff_table` lines 374-387: a falsy
(absent or empty) value is "N/A", an unparseable value is "Unknown", otherwise
the day-delta decides Expired / Due soon / Valid. -/
def certificationStatus (expiry : Option Str) (t : Date) : CertStatus :=
  match expiry with
  | none => .notApplicable
  | some s =>
    if s.isEmpty then .notApplicable
    else
      match parseDate s with
      | none => .unknown
      | some e => certStatusOfDelta ((toDays e : Int) - (toDays t : Int))

/-- Inventory status values produced in `refresh_inventory_table`. -/
inductive InvStatus where
  | ok
  | lowStock
  | expired
  | unknown
deriving DecidableEq, Repr

/-- Inventory status as computed in `refresh_inventory_table` lines 920-929:
start from "OK", replace by "Low Stock" when `qty <= min_qty`, then, when a
truthy expiry is stored, override with "Expired" if it parses to a past date,
leave the low-stock result if it parses to a non-past date, and override with
"Unknown" if it does not parse. -/
def inventoryStatus (qty minQty : Int) (expiry : Option Str) (t : Date) : InvStatus :=
  let base : InvStatus := if qty ≤ minQty then .lowStock else .ok
  match expiry with
  | none => base
  | some s =>
    if s.isEmpty then base
    else
      match parseDate s with
      | none => .unknown
      | some e => if toDays e < toDays t then .expired else base

/-- A staff row: id, name, email, optional certification name and expiry
(the columns of the `staff` table used by the core logic). -/
structure Staff where
  id : Nat
  name : Str
  email : Str
  certName : Option Str
  certExpiry : Option Str
deriving DecidableEq, Repr

/-- A shift row: stored date text, shift type, and assigned staff id. -/
structure Shift where
  shiftDate : Str
  shiftType : Str
  staffId : Nat
deriving DecidableEq, Repr

/-- The WHERE clause of the dashboard / notification selection
(`certification_expiry IS NOT NULL AND certification_expiry <> '' AND
certification_expiry <= due_limit`, lines 216 and 431): a byte-wise string
comparison against `(today + timedelta(days=60)).isoformat()`. -/
def certDueSelected (t : Date) (st : Staff) : Bool :=
  match st.certExpiry with
  | none => false
  | some s => !s.isEmpty && textLe s (renderDate (addDays t 60))

/-- The dashboard aggregate `cert_due` of `refresh_dashboard` lines 213-219:
the number of staff rows matched by the threshold query. -/
def dashboardCertDue (t : Date) (staffList : List Staff) : Nat :=
  staffList.countP (certDueSelected t)

/-- Whether a certification status counts as needing attention. -/
def isDueOrExpired : CertStatus → Bool
  | .dueSoon => true
  | .expired => true
  | _ => false

/-- The evaluator-side count: staff whose per-record certification status at
`t` (the `refresh_training_table` classification) is Due soon or Expired. -/
def evaluatorCertDue (t : Date) (staffList : List Staff) : Nat :=
  staffList.countP (fun st => isDueOrExpired (certificationStatus st.certExpiry t))

/-- A composed notification message: recipient email, subject, body. -/
structure EmailMsg where
  recipient : Str
  subject : Str
  body : Str
deriving DecidableEq, Repr

/-- Outcome of one batch of sends: messages attempted in order, number of
successful sends, and the `(email, str(e))` failure pairs in attempt order. -/
structure BatchResult where
  attempted : List EmailMsg
  sent : Nat
  failures : List (Str × Str)
deriving DecidableEq, Repr

/-- The send loop shared by `notify_due_certifications` (lines 446-465) and
`notify_shifts` (lines 660-667): each message is attempted via
`self.send_email`; an exception is caught, recorded as `(email, str(e))`, and
the loop continues with the remaining messages.  The transport is a function
returning `none` on success and `some err` when `send_email` raises. -/
def dispatchLoop (send : EmailMsg → Option Str) : List EmailMsg → BatchResult
  | [] => ⟨[], 0, []⟩
  | msg :: rest =>
    let r := dispatchLoop send rest
    match send msg with
    | none => ⟨msg :: r.attempted, r.sent + 1, r.failures⟩
    | some e => ⟨msg :: r.attempted, r.sent, (msg.recipient, e) :: r.failures⟩

/-- Python renders `None` as the string "None" inside an f-string; the
certification name column is nullable and is interpolated directly. -/
def optStr : Option Str → Str
  | none => "None".data
  | some s => s

/-- Decimal rendering of a non-negative integer, as an f-string interpolates it. -/
def natToStr (n : Nat) : Str := Nat.toDigits 10 n

/-- The single-quote character (kept out of string literals). -/
def quoteChar : Char := Char.ofNat 39

/-- The part shared by both certification reminder bodies:
`"Dear {name},\n\nYour certification '{cert_name}'"`. -/
def certBodyPrefix (name certName : Str) : Str :=
  "Dear ".data ++ name ++ ",\n\nYour certification ".data ++ [quoteChar] ++ certName ++ [quoteChar]

/-- Body for an expired certification (lines 451-455). -/
def certBodyExpired (name certName expiryStr : Str) : Str :=
  certBodyPrefix name certName ++ " expired on ".data ++ expiryStr
    ++ ". Please renew immediately to maintain compliance.\n\nThis is an automated reminder from the healthcare management system.".data

/-- Body for a certification due in `n` days (lines 456-461). -/
def certBodyDueSoon (name certName expiryStr : Str) (n : Nat) : Str :=
  certBodyPrefix name certName ++ " will expire on ".data ++ expiryStr
    ++ " (in ".data ++ natToStr n
    ++ " days). Please ensure you renew your certification before it expires.\n\nThis is an automated reminder from the healthcare management system.".data

/-- Compose the certification reminder for one selected staff row
(lines 447-461): `days_remaining = (strptime(cert_expiry) - today).days`
selects the expired body when negative and the due-soon body otherwise.
`none` models the uncaught `ValueError` when the stored expiry does not parse. -/
def composeCertMsg (t : Date) (st : Staff) : Option EmailMsg :=
  match st.certExpiry with
  | none => none
  | some s =>
    if s.isEmpty then none
    else
      match parseDate s with
      | none => none
      | some e =>
        let delta : Int := (toDays e : Int) - (toDays t : Int)
        let body :=
          if delta < 0 then certBodyExpired st.name (optStr st.certName) s
          else certBodyDueSoon st.name (optStr st.certName) s delta.toNat
        some ⟨st.email, "Certification Renewal Reminder".data, body⟩

/-- Result of one notification command: the empty-selection early return, a
crash from an unparseable stored date, or a completed batch. -/
inductive NotifyOutcome where
  | nothingToSend
  | crashed
  | dispatched (r : BatchResult)
deriving DecidableEq, Repr

/-- Attempted messages of an outcome (empty when the loop never ran). -/
def NotifyOutcome.attemptedOf : NotifyOutcome → List EmailMsg
  | .dispatched r => r.attempted
  | _ => []

/-- Successful-send count of an outcome. -/
def NotifyOutcome.sentOf : NotifyOutcome → Nat
  | .dispatched r => r.sent
  | _ => 0

/-- Failure list of an outcome. -/
def NotifyOutcome.failuresOf : NotifyOutcome → List (Str × Str)
  | .dispatched r => r.failures
  | _ => []

/-- `notify_due_certifications` (lines 424-470): select staff by the 60-day
threshold query; with an empty selection, show "No notifications" and return
before the transport is ever touched; otherwise compose and send one message
per selected row through the failure-isolating loop.  A selected row whose
stored expiry does not parse raises an uncaught `ValueError` (`.crashed`;
sends made before such a crash are not tracked since no property needs them). -/
def notifyDueCertifications (send : EmailMsg → Option Str) (t : Date)
    (staffList : List Staff) : NotifyOutcome :=
  let selected := staffList.filter (certDueSelected t)
  if selected.isEmpty then .nothingToSend
  else
    match selected.mapM (composeCertMsg t) with
    | none => .crashed
    | some msgs => .dispatched (dispatchLoop send msgs)

/-- One line of the grouped shift listing: `shift_date || ' (' || shift_type || ')'`. -/
def shiftLine (sh : Shift) : Str := sh.shiftDate ++ " (".data ++ sh.shiftType ++ ")".data

/-- `GROUP_CONCAT(expr, '\n')`: concatenation with newline separators, in the
order the rows are scanned (the query has no ORDER BY, so this is table order). -/
def groupConcat : List Str → Str
  | [] => []
  | [x] => x
  | x :: y :: rest => x ++ '\n' :: groupConcat (y :: rest)

/-- The shift window filter `shift_date BETWEEN today AND today+7` (line 652),
a byte-wise string comparison against the two ISO-rendered bounds. -/
def shiftInWindow (t : Date) (sh : Shift) : Bool :=
  textLe (renderDate t) sh.shiftDate && textLe sh.shiftDate (renderDate (addDays t 7))

/-- The in-window shift rows of one staff member, in table order. -/
def shiftsFor (t : Date) (shifts : List Shift) (sid : Nat) : List Shift :=
  shifts.filter (fun sh => shiftInWindow t sh && sh.staffId == sid)

/-- One output row of the grouped shift query (line 649-655). -/
structure ShiftGroup where
  staffId : Nat
  name : Str
  email : Str
  shiftInfo : Str
deriving DecidableEq, Repr

/-- The grouped query of `notify_shifts`: join shifts to staff, keep the next
week's rows, and produce one row per staff member with their concatenated
shift listing.  Rows whose `staff_id` matches no staff row are dropped by the
inner join; the concatenation follows shift-table order. -/
def shiftGroups (t : Date) (shifts : List Shift) : List Staff → List ShiftGroup
  | [] => []
  | st :: rest =>
    let mine := shiftsFor t shifts st.id
    if mine.isEmpty then shiftGroups t shifts rest
    else ⟨st.id, st.name, st.email, groupConcat (mine.map shiftLine)⟩ :: shiftGroups t shifts rest

/-- Body of a shift reminder (line 663). -/
def shiftBody (name shiftInfo : Str) : Str :=
  "Dear ".data ++ name ++ ",\n\nHere is your schedule for the next week:\n\n".data
    ++ shiftInfo ++ "\n\nBest regards,\nHealthcare Support Service".data

/-- The message composed for one group row (lines 661-663). -/
def shiftMsgOfGroup (g : ShiftGroup) : EmailMsg :=
  ⟨g.email, "Your Upcoming Shifts".data, shiftBody g.name g.shiftInfo⟩

/-- `notify_shifts` (lines 638-672): group the coming week's shifts by staff
member; with no rows, show "No upcoming shifts" and return without sending;
otherwise send one message per group through the failure-isolating loop. -/
def notifyShifts (send : EmailMsg → Option Str) (t : Date) (shifts : List Shift)
    (staffList : List Staff) : NotifyOutcome :=
  let gs := shiftGroups t shifts staffList
  if gs.isEmpty then .nothingToSend
  else .dispatched (dispatchLoop send (gs.map shiftMsgOfGroup))

/-- The double-click toggle of `on_safety_select` (line 783):
`"Resolved" if current_status == "Open" else "Open"`. -/
def toggleStatus (s : Str) : Str :=
  if s = "Open".data then "Resolved".data else "Open".data

/-- The explicit resolve action of `resolve_safety` (line 799):
`UPDATE safety SET status='Resolved'` regardless of the current status. -/
def resolveStatus (_ : Str) : Str := "Resolved".data

/-- An inventory row: id, item name, quantity, minimum quantity, optional expiry. -/
structure InvItem where
  id : Nat
  itemName : Str
  quantity : Int
  minQuantity : Int
  expiry : Option Str
deriving DecidableEq, Repr

/-- `save_inventory_item` (lines 887-902): look the name up
(`SELECT id FROM inventory WHERE item_name=?`, first match); when found,
UPDATE that row's quantity, minimum quantity and expiry in place; otherwise
INSERT a fresh row (`newId` models the autoincrement id). -/
def saveInventoryItem (name : Str) (qty minQty : Int) (expiry : Option Str)
    (newId : Nat) : List InvItem → List InvItem
  | [] => [⟨newId, name, qty, minQty, expiry⟩]
  | r :: rest =>
    if r.itemName = name then ⟨r.id, r.itemName, qty, minQty, expiry⟩ :: rest
    else r :: saveInventoryItem name qty minQty expiry newId rest

/-- The form input of one save operation. -/
structure SaveOp where
  name : Str
  qty : Int
  minQty : Int
  expiry : Option Str
  newId : Nat
deriving DecidableEq, Repr

/-- Apply one save operation to the inventory table. -/
def applySave (inv : List InvItem) (op : SaveOp) : List InvItem :=
  saveInventoryItem op.name op.qty op.minQty op.expiry op.newId inv

/-- First inventory row with the given name (the `fetchone` lookup). -/
def findByName (name : Str) (inv : List InvItem) : Option InvItem :=
  inv.find? (fun r => r.itemName = name)

/-- Chronological order on (year, month, day) triples. -/
def dateLexLt (a b : Date) : Prop :=
  a.y < b.y ∨ (a.y = b.y ∧ (a.m < b.m ∨ (a.m = b.m ∧ a.d < b.d)))

instance (a b : Date) : Decidable (dateLexLt a b) := by
  unfold dateLexLt
  infer_instance

/-- A stored expiry that cannot make the two 60-day computations diverge:
absent, empty, or the canonical ISO rendering of a valid date. -/
def WfExpiry (st : Staff) : Prop :=
  match st.certExpiry with
  | none => True
  | some s => s = [] ∨ ∃ e : Date, e.Valid ∧ e.y ≤ 9999 ∧ s = renderDate e

/-- A stored inventory expiry that the status evaluator can interpret:
absent, empty, or parseable. -/
def ExpiryWf (expiry : Option Str) : Prop :=
  match expiry with
  | none => True
  | some s => s = [] ∨ (parseDate s).isSome

instance (expiry : Option Str) : Decidable (ExpiryWf expiry) :=
  match expiry with
  | none => isTrue trivial
  | some s => inferInstanceAs (Decidable (s = [] ∨ (parseDate s).isSome))

/-! ### Calendar arithmetic lemmas -/

theorem isLeap_iff (y : Nat) :
    isLeap y = true ↔ (y % 4 = 0 ∧ ¬y % 100 = 0) ∨ y % 400 = 0 := by
  simp [isLeap, Bool.or_eq_true, Bool.and_eq_true, beq_iff_eq, bne_iff_ne]

theorem daysInMonth_ge (y m : Nat) : 28 ≤ daysInMonth y m := by
  unfold daysInMonth
  split
  · split <;> omega
  · split <;> omega

theorem monthOffset_mono {m1 m2 : Nat} (h0 : 1 ≤ m1) (h : m1 ≤ m2) (h2 : m2 ≤ 13) :
    monthOffset m1 ≤ monthOffset m2 := by
  have key : ∀ b, b < 14 → ∀ a, a < 14 → 1 ≤ a → a ≤ b → monthOffset a ≤ monthOffset b := by
    decide
  exact key m2 (by omega) m1 (by omega) h0 h

theorem daysBeforeMonth_succ (y m : Nat) (h1 : 1 ≤ m) (h2 : m ≤ 12) :
    daysBeforeMonth y (m + 1) = daysBeforeMonth y m + daysInMonth y m := by
  interval_cases m <;>
    cases hL : isLeap y <;>
      simp [daysBeforeMonth, daysInMonth, monthOffset, hL]

theorem daysBeforeMonth_mono (y : Nat) {m1 m2 : Nat} (h0 : 1 ≤ m1) (h : m1 ≤ m2)
    (h2 : m2 ≤ 13) : daysBeforeMonth y m1 ≤ daysBeforeMonth y m2 := by
  have hmo := monthOffset_mono h0 h h2
  unfold daysBeforeMonth
  cases hL : isLeap y
  · simpa [hL] using hmo
  · simp only [hL, Bool.and_true]
    split <;> split <;> simp_all <;> omega

theorem daysBeforeMonth_add_le (y m d : Nat) (h1 : 1 ≤ m) (h2 : m ≤ 12)
    (hd : d ≤ daysInMonth y m) :
    daysBeforeMonth y m + d ≤ 365 + (if isLeap y then 1 else 0) := by
  interval_cases m <;>
    cases hL : isLeap y <;>
      simp [daysBeforeMonth, daysInMonth, monthOffset, hL] at hd ⊢ <;> omega

theorem daysBeforeYear_succ (y : Nat) (h : 1 ≤ y) :
    daysBeforeYear (y + 1) = daysBeforeYear y + 365 + (if isLeap y then 1 else 0) := by
  obtain ⟨k, rfl⟩ : ∃ k, y = k + 1 := ⟨y - 1, by omega⟩
  have hb : (if isLeap (k + 1) then (1 : Nat) else 0)
      = if (k + 1) % 4 = 0 ∧ ¬(k + 1) % 100 = 0 ∨ (k + 1) % 400 = 0 then 1 else 0 := by
    by_cases hc : (k + 1) % 4 = 0 ∧ ¬(k + 1) % 100 = 0 ∨ (k + 1) % 400 = 0
    · rw [if_pos hc, if_pos ((isLeap_iff (k + 1)).mpr hc)]
    · rw [if_neg hc, if_neg (fun hL => hc ((isLeap_iff (k + 1)).mp hL))]
  rw [hb]
  unfold daysBeforeYear
  simp only [Nat.add_sub_cancel]
  split <;> omega

theorem daysBeforeYear_mono {y1 y2 : Nat} (h : y1 ≤ y2) :
    daysBeforeYear y1 ≤ daysBeforeYear y2 := by
  unfold daysBeforeYear
  have : (y1 - 1) / 4 - (y1 - 1) / 100 + (y1 - 1) / 400
      ≤ (y2 - 1) / 4 - (y2 - 1) / 100 + (y2 - 1) / 400 := by omega
  omega

theorem toDays_lower (a : Date) (ha : a.Valid) : daysBeforeYear a.y < toDays a := by
  obtain ⟨h1, h2, h3, h4, h5⟩ := ha
  unfold toDays
  omega

theorem toDays_upper (a : Date) (ha : a.Valid) : toDays a ≤ daysBeforeYear (a.y + 1) := by
  obtain ⟨h1, h2, h3, h4, h5⟩ := ha
  have hb := daysBeforeMonth_add_le a.y a.m a.d h2 h3 h5
  rw [toDays, daysBeforeYear_succ a.y h1]
  omega

theorem toDays_lt_of_lex {a b : Date} (ha : a.Valid) (hb : b.Valid)
    (h : dateLexLt a b) : toDays a < toDays b := by
  obtain ⟨ay1, am1, am2, ad1, ad2⟩ := ha
  obtain ⟨by1, bm1, bm2, bd1, bd2⟩ := hb
  rcases h with hy | ⟨hy, hm | ⟨hm, hd⟩⟩
  · have h1 := toDays_upper a ⟨ay1, am1, am2, ad1, ad2⟩
    have h2 := toDays_lower b ⟨by1, bm1, bm2, bd1, bd2⟩
    have h3 := daysBeforeYear_mono (show a.y + 1 ≤ b.y by omega)
    omega
  · have hsucc := daysBeforeMonth_succ a.y a.m am1 am2
    have hmono := daysBeforeMonth_mono a.y (show 1 ≤ a.m + 1 by omega)
      (show a.m + 1 ≤ b.m by omega) (by omega)
    rw [hy] at ad2 hsucc hmono
    unfold toDays
    rw [hy]
    omega
  · unfold toDays
    rw [hy, hm]
    omega

theorem toDays_lt_iff_lex {a b : Date} (ha : a.Valid) (hb : b.Valid) :
    toDays a < toDays b ↔ dateLexLt a b := by
  constructor
  · intro h
    by_contra hc
    have hle : toDays b ≤ toDays a := by
      rcases Decidable.em (a.y = b.y ∧ a.m = b.m ∧ a.d = b.d) with heq | hne
      · have hab : a = b := by
          rcases a with ⟨x1, x2, x3⟩
          rcases b with ⟨z1, z2, z3⟩
          simp_all
        rw [hab]
      · have hba : dateLexLt b a := by
          unfold dateLexLt at hc ⊢
          omega
        exact Nat.le_of_lt (toDays_lt_of_lex hb ha hba)
    omega
  · exact toDays_lt_of_lex ha hb

theorem nextDay_valid {a : Date} (ha : a.Valid) : (nextDay a).Valid := by
  obtain ⟨h1, h2, h3, h4, h5⟩ := ha
  unfold nextDay
  split
  · exact show 1 ≤ a.y ∧ 1 ≤ a.m ∧ a.m ≤ 12 ∧ 1 ≤ a.d + 1 ∧ a.d + 1 ≤ daysInMonth a.y a.m
      from ⟨h1, h2, h3, by omega, by omega⟩
  · split
    · have hg := daysInMonth_ge a.y (a.m + 1)
      exact show 1 ≤ a.y ∧ 1 ≤ a.m + 1 ∧ a.m + 1 ≤ 12 ∧ 1 ≤ 1 ∧ 1 ≤ daysInMonth a.y (a.m + 1)
        from ⟨h1, by omega, by omega, by omega, by omega⟩
    · have hg := daysInMonth_ge (a.y + 1) 1
      exact show 1 ≤ a.y + 1 ∧ 1 ≤ 1 ∧ 1 ≤ 12 ∧ 1 ≤ 1 ∧ 1 ≤ daysInMonth (a.y + 1) 1
        from ⟨by omega, by omega, by omega, by omega, by omega⟩

theorem toDays_nextDay {a : Date} (ha : a.Valid) : toDays (nextDay a) = toDays a + 1 := by
  obtain ⟨h1, h2, h3, h4, h5⟩ := ha
  unfold nextDay
  split
  · show daysBeforeYear a.y + daysBeforeMonth a.y a.m + (a.d + 1)
      = daysBeforeYear a.y + daysBeforeMonth a.y a.m + a.d + 1
    omega
  · split
    · have hd : a.d = daysInMonth a.y a.m := by omega
      have hsucc := daysBeforeMonth_succ a.y a.m h2 h3
      show daysBeforeYear a.y + daysBeforeMonth a.y (a.m + 1) + 1
        = daysBeforeYear a.y + daysBeforeMonth a.y a.m + a.d + 1
      omega
    · have hm : a.m = 12 := by omega
      have h31 : daysInMonth a.y 12 = 31 := by simp [daysInMonth]
      have hdim : daysInMonth a.y a.m = 31 := by rw [hm, h31]
      have hd : a.d = 31 := by omega
      have hy := daysBeforeYear_succ a.y h1
      have hz : daysBeforeMonth (a.y + 1) 1 = 0 := by
        simp [daysBeforeMonth, monthOffset]
      have h12 : daysBeforeMonth a.y 12 = 334 + (if isLeap a.y then 1 else 0) := by
        cases hL : isLeap a.y <;> simp [daysBeforeMonth, monthOffset, hL]
      show daysBeforeYear (a.y + 1) + daysBeforeMonth (a.y + 1) 1 + 1
        = daysBeforeYear a.y + daysBeforeMonth a.y a.m + a.d + 1
      rw [hm, hd, hz, h12, hy]
      split <;> omega

theorem addDays_valid {a : Date} (ha : a.Valid) (n : Nat) : (addDays a n).Valid := by
  induction n with
  | zero => exact ha
  | succ k ih => exact nextDay_valid ih

theorem toDays_addDays {a : Date} (ha : a.Valid) (n : Nat) :
    toDays (addDays a n) = toDays a + n := by
  induction n with
  | zero => rfl
  | succ k ih =>
    have hstep := toDays_nextDay (addDays_valid ha k)
    show toDays (nextDay (addDays a k)) = toDays a + (k + 1)
    omega

theorem dc_toNat {k : Nat} (h : k < 10) : (dc k).toNat = 48 + k := by
  interval_cases k <;> rfl

theorem dc_mod_toNat (n : Nat) : (dc (n % 10)).toNat = 48 + n % 10 :=
  dc_toNat (Nat.mod_lt _ (by omega))

theorem textLt_cons_same (c : Char) (x y : Str) : textLt (c :: x) (c :: y) = textLt x y := by
  simp [textLt]

theorem textLt_pad2_append {n1 n2 : Nat} (r1 r2 : Str) (h1 : n1 ≤ 99) (h2 : n2 ≤ 99) :
    textLt (pad2 n1 ++ r1) (pad2 n2 ++ r2) = true
      ↔ n1 < n2 ∨ (n1 = n2 ∧ textLt r1 r2 = true) := by
  have e1 := dc_toNat (show n1 / 10 < 10 by omega)
  have f1 := dc_toNat (show n2 / 10 < 10 by omega)
  simp only [pad2, List.cons_append, List.nil_append, List.append_eq, textLt,
    e1, f1, dc_mod_toNat]
  simp only [Bool.or_eq_true, Bool.and_eq_true, Nat.blt_eq, beq_iff_eq]
  by_cases hP : textLt r1 r2 = true
  · simp only [hP, and_true]
    omega
  · simp only [hP, Bool.false_eq_true, and_false, or_false]
    omega

theorem textLt_pad2_iff {n1 n2 : Nat} (h1 : n1 ≤ 99) (h2 : n2 ≤ 99) :
    textLt (pad2 n1) (pad2 n2) = true ↔ n1 < n2 := by
  have h := textLt_pad2_append [] [] h1 h2
  rw [List.append_nil, List.append_nil] at h
  rw [h]
  simp [textLt]

theorem pad4_eq_pad2_pad2 (y : Nat) : pad4 y = pad2 (y / 100) ++ pad2 (y % 100) := by
  unfold pad4 pad2
  have h1 : y / 100 / 10 = y / 1000 := by omega
  have h3 : y % 100 / 10 = y / 10 % 10 := by omega
  have h4 : y % 100 % 10 = y % 10 := by omega
  rw [h1, h3, h4]
  rfl

theorem textLt_pad4_append {y1 y2 : Nat} (r1 r2 : Str) (h1 : y1 ≤ 9999) (h2 : y2 ≤ 9999) :
    textLt (pad4 y1 ++ r1) (pad4 y2 ++ r2) = true
      ↔ y1 < y2 ∨ (y1 = y2 ∧ textLt r1 r2 = true) := by
  rw [pad4_eq_pad2_pad2, pad4_eq_pad2_pad2, List.append_assoc, List.append_assoc]
  rw [textLt_pad2_append _ _ (show y1 / 100 ≤ 99 by omega) (show y2 / 100 ≤ 99 by omega)]
  rw [textLt_pad2_append _ _ (show y1 % 100 ≤ 99 by omega) (show y2 % 100 ≤ 99 by omega)]
  by_cases hP : textLt r1 r2 = true
  · simp only [hP, and_true]
    omega
  · simp only [hP, Bool.false_eq_true, and_false, or_false]
    omega

theorem textLt_render {a b : Date} (ha9 : a.y ≤ 9999) (hb9 : b.y ≤ 9999)
    (ham : a.m ≤ 12) (hbm : b.m ≤ 12) (had : a.d ≤ 31) (hbd : b.d ≤ 31) :
    textLt (renderDate a) (renderDate b) = true ↔ dateLexLt a b := by
  unfold renderDate
  simp only [List.append_assoc, List.cons_append]
  rw [textLt_pad4_append _ _ ha9 hb9, textLt_cons_same,
    textLt_pad2_append _ _ (show a.m ≤ 99 by omega) (show b.m ≤ 99 by omega),
    textLt_cons_same,
    textLt_pad2_iff (show a.d ≤ 99 by omega) (show b.d ≤ 99 by omega)]
  unfold dateLexLt
  tauto
theorem daysInMonth_le (y m : Nat) : daysInMonth y m ≤ 31 := by
  unfold daysInMonth
  split
  · split <;> omega
  · split <;> omega

theorem textLe_render {a b : Date} (ha : a.Valid) (hb : b.Valid)
    (ha9 : a.y ≤ 9999) (hb9 : b.y ≤ 9999) :
    textLe (renderDate a) (renderDate b) = true ↔ toDays a ≤ toDays b := by
  have hma : a.m ≤ 12 := ha.2.2.1
  have hmb : b.m ≤ 12 := hb.2.2.1
  have hda : a.d ≤ 31 := le_trans ha.2.2.2.2 (daysInMonth_le a.y a.m)
  have hdb : b.d ≤ 31 := le_trans hb.2.2.2.2 (daysInMonth_le b.y b.m)
  have key := textLt_render hb9 ha9 hmb hma hdb hda
  have key2 := toDays_lt_iff_lex hb ha
  unfold textLe
  rcases hx : textLt (renderDate b) (renderDate a) with _ | _
  · rw [hx] at key
    simp only [Bool.false_eq_true, false_iff] at key
    simp only [Bool.not_false]
    constructor
    · intro _
      by_contra hc
      exact key (key2.mp (by omega))
    · intro _
      trivial
  · rw [hx] at key
    simp only [true_iff] at key
    have hlt := toDays_lt_of_lex hb ha key
    simp only [Bool.not_true]
    constructor
    · intro hcontra
      simp at hcontra
    · intro hle
      exact absurd hle (by omega)

theorem dc_ne_dash {k : Nat} (h : k < 10) : ¬dc k = '-' := by
  interval_cases k <;> decide

theorem dc_isDigit {k : Nat} (h : k < 10) : (dc k).isDigit = true := by
  interval_cases k <;> decide

theorem splitDashes_render (a : Date) (h9 : a.y ≤ 9999) (hm : a.m ≤ 99) (hd : a.d ≤ 99) :
    splitDashes (renderDate a) = [pad4 a.y, pad2 a.m, pad2 a.d] := by
  have n1 : ¬dc (a.y / 1000) = '-' := dc_ne_dash (by omega)
  have n2 : ¬dc (a.y / 100 % 10) = '-' := dc_ne_dash (by omega)
  have n3 : ¬dc (a.y / 10 % 10) = '-' := dc_ne_dash (by omega)
  have n4 : ¬dc (a.y % 10) = '-' := dc_ne_dash (by omega)
  have n5 : ¬dc (a.m / 10) = '-' := dc_ne_dash (by omega)
  have n6 : ¬dc (a.m % 10) = '-' := dc_ne_dash (by omega)
  have n7 : ¬dc (a.d / 10) = '-' := dc_ne_dash (by omega)
  have n8 : ¬dc (a.d % 10) = '-' := dc_ne_dash (by omega)
  simp [renderDate, pad4, pad2, splitDashes, n1, n2, n3, n4, n5, n6, n7, n8]

theorem digitsVal_pad2 {n : Nat} (h : n ≤ 99) : digitsVal (pad2 n) = n := by
  have e1 := dc_toNat (show n / 10 < 10 by omega)
  simp [digitsVal, pad2, e1, dc_mod_toNat]
  omega

theorem digitsVal_pad4 {n : Nat} (h : n ≤ 9999) : digitsVal (pad4 n) = n := by
  have e1 := dc_toNat (show n / 1000 < 10 by omega)
  simp [digitsVal, pad4, e1, dc_mod_toNat]
  omega

theorem isDigits_pad2 {n : Nat} (h : n ≤ 99) : isDigits (pad2 n) = true := by
  have e1 := dc_isDigit (show n / 10 < 10 by omega)
  have e2 := dc_isDigit (show n % 10 < 10 by omega)
  simp [isDigits, pad2, e1, e2]

theorem isDigits_pad4 {n : Nat} (h : n ≤ 9999) : isDigits (pad4 n) = true := by
  have e1 := dc_isDigit (show n / 1000 < 10 by omega)
  have e2 := dc_isDigit (show n / 100 % 10 < 10 by omega)
  have e3 := dc_isDigit (show n / 10 % 10 < 10 by omega)
  have e4 := dc_isDigit (show n % 10 < 10 by omega)
  simp [isDigits, pad4, e1, e2, e3, e4]

theorem parseYearField_pad4 {n : Nat} (h : n ≤ 9999) : parseYearField (pad4 n) = some n := by
  have hlen : (pad4 n).length = 4 := by simp [pad4]
  unfold parseYearField
  rw [isDigits_pad4 h, hlen, digitsVal_pad4 h]
  rfl

theorem parseMonthField_pad2 {n : Nat} (h : n ≤ 99) : parseMonthField (pad2 n) = some n := by
  have hlen : (pad2 n).length = 2 := by simp [pad2]
  unfold parseMonthField
  rw [isDigits_pad2 h, hlen, digitsVal_pad2 h]
  rfl

theorem parseDayField_pad2 {n : Nat} (h : n ≤ 99) : parseDayField (pad2 n) = some n := by
  have hlen : (pad2 n).length = 2 := by simp [pad2]
  unfold parseDayField
  rw [isDigits_pad2 h, hlen, digitsVal_pad2 h]
  rfl

theorem parseDate_render {a : Date} (ha : a.Valid) (h9 : a.y ≤ 9999) :
    parseDate (renderDate a) = some a := by
  obtain ⟨h1, h2, h3, h4, h5⟩ := ha
  have hd99 : a.d ≤ 99 := by
    have := daysInMonth_le a.y a.m
    omega
  rw [parseDate, splitDashes_render a h9 (by omega) hd99]
  simp only [parseYearField_pad4 h9, parseMonthField_pad2 (show a.m ≤ 99 by omega),
    parseDayField_pad2 hd99]
  simp [h1, h2, h3, h4, h5]

/-- Status-side view of the threshold: Due soon or Expired exactly when the
day delta is at most the 60-day window. -/
theorem isDueOrExpired_delta (δ : Int) :
    isDueOrExpired (certStatusOfDelta δ) = decide (δ ≤ 60) := by
  unfold certStatusOfDelta
  split
  · have hδ : δ ≤ 60 := by omega
    simp [isDueOrExpired, hδ]
  · split
    · have hδ : δ ≤ 60 := by assumption
      simp [isDueOrExpired, hδ]
    · have hδ : ¬δ ≤ 60 := by assumption
      simp [isDueOrExpired, hδ]

theorem renderDate_not_empty (e : Date) : (renderDate e).isEmpty = false := by
  simp [renderDate, pad4]

theorem certDue_agree {t : Date} (ht : t.Valid) (h60 : (addDays t 60).y ≤ 9999)
    (st : Staff) (hwf : WfExpiry st) :
    certDueSelected t st = isDueOrExpired (certificationStatus st.certExpiry t) := by
  unfold WfExpiry at hwf
  unfold certDueSelected certificationStatus
  rcases hex : st.certExpiry with _ | s
  · rfl
  · rw [hex] at hwf
    rcases hwf with rfl | ⟨e, he, he9, rfl⟩
    · simp [isDueOrExpired]
    · have hL : (addDays t 60).Valid := addDays_valid ht 60
      have hparse : parseDate (renderDate e) = some e := parseDate_render he he9
      have hne := renderDate_not_empty e
      have hc := textLe_render he hL he9 h60
      rw [toDays_addDays ht] at hc
      simp only [hparse, hne, isDueOrExpired_delta, Bool.not_false, Bool.true_and,
        Bool.false_eq_true, if_false]
      by_cases hcomp : toDays e ≤ toDays t + 60
      · rw [hc.mpr hcomp]
        have hδ : ((toDays e : Int) - (toDays t : Int) ≤ 60) := by omega
        simp [hδ]
      · have hfalse : textLe (renderDate e) (renderDate (addDays t 60)) = false := by
          rcases hb : textLe (renderDate e) (renderDate (addDays t 60)) with _ | _
          · rfl
          · exact absurd (hc.mp hb) hcomp
        rw [hfalse]
        have hδ : ¬((toDays e : Int) - (toDays t : Int) ≤ 60) := by omega
        simp [hδ]

theorem dashboard_evaluator_count {t : Date} (ht : t.Valid) (h60 : (addDays t 60).y ≤ 9999)
    (staffList : List Staff) (hwf : ∀ st ∈ staffList, WfExpiry st) :
    dashboardCertDue t staffList = evaluatorCertDue t staffList := by
  unfold dashboardCertDue evaluatorCertDue
  induction staffList with
  | nil => rfl
  | cons st rest ih =>
    rw [List.countP_cons, List.countP_cons,
      certDue_agree ht h60 st (hwf st (by simp)),
      ih (fun x hx => hwf x (by simp [hx]))]

/-! ### Dispatch loop lemmas -/

theorem dispatchLoop_attempted (send : EmailMsg → Option Str) (msgs : List EmailMsg) :
    (dispatchLoop send msgs).attempted = msgs := by
  induction msgs with
  | nil => rfl
  | cons m rest ih =>
    unfold dispatchLoop
    rcases hs : send m with _ | e <;> simp [hs, ih]

theorem dispatchLoop_sent (send : EmailMsg → Option Str) (msgs : List EmailMsg) :
    (dispatchLoop send msgs).sent = msgs.countP (fun m => (send m).isNone) := by
  induction msgs with
  | nil => rfl
  | cons m rest ih =>
    unfold dispatchLoop
    rw [List.countP_cons]
    rcases hs : send m with _ | e <;> simp [hs, ih]

theorem dispatchLoop_failures (send : EmailMsg → Option Str) (msgs : List EmailMsg) :
    (dispatchLoop send msgs).failures
      = msgs.filterMap (fun m => (send m).map (fun e => (m.recipient, e))) := by
  induction msgs with
  | nil => rfl
  | cons m rest ih =>
    unfold dispatchLoop
    rcases hs : send m with _ | e <;> simp [hs, ih, List.filterMap_cons]

/-! ### Shift grouping lemmas -/

theorem shiftGroups_eq (t : Date) (shifts : List Shift) (staffList : List Staff) :
    shiftGroups t shifts staffList
      = (staffList.filter (fun st => !(shiftsFor t shifts st.id).isEmpty)).map
          (fun st => ⟨st.id, st.name, st.email,
            groupConcat ((shiftsFor t shifts st.id).map shiftLine)⟩) := by
  induction staffList with
  | nil => rfl
  | cons st rest ih =>
    unfold shiftGroups
    rw [List.filter_cons]
    rcases h : (shiftsFor t shifts st.id).isEmpty with _ | _ <;> simp [h, ih]

theorem shiftGroups_ids (t : Date) (shifts : List Shift) (staffList : List Staff) :
    ((shiftGroups t shifts staffList).map ShiftGroup.staffId).Sublist
      (staffList.map Staff.id) := by
  induction staffList with
  | nil => simp [shiftGroups]
  | cons st rest ih =>
    unfold shiftGroups
    rcases h : (shiftsFor t shifts st.id).isEmpty with _ | _
    · simp only [h, Bool.false_eq_true, if_false, List.map_cons]
      exact List.Sublist.cons₂ st.id ih
    · simp only [h, eq_self_iff_true, if_true, List.map_cons]
      exact List.Sublist.cons st.id ih

theorem shiftGroups_nodup {t : Date} {shifts : List Shift} {staffList : List Staff}
    (h : (staffList.map Staff.id).Nodup) :
    ((shiftGroups t shifts staffList).map ShiftGroup.staffId).Nodup :=
  (shiftGroups_ids t shifts staffList).nodup h

/-! ### Inventory upsert lemmas -/

theorem saveInventoryItem_names (n : Str) (q mq : Int) (ex : Option Str) (i : Nat)
    (inv : List InvItem) :
    (saveInventoryItem n q mq ex i inv).map InvItem.itemName
      = if n ∈ inv.map InvItem.itemName then inv.map InvItem.itemName
        else inv.map InvItem.itemName ++ [n] := by
  induction inv with
  | nil => simp [saveInventoryItem]
  | cons r rest ih =>
    unfold saveInventoryItem
    by_cases hr : r.itemName = n
    · simp [hr]
    · simp only [hr, if_false, List.map_cons, ih]
      by_cases hmem : n ∈ rest.map InvItem.itemName
      · simp [hmem, Ne.symm hr]
      · simp [hmem, Ne.symm hr]

theorem saveInventoryItem_nodup {n : Str} {q mq : Int} {ex : Option Str} {i : Nat}
    {inv : List InvItem} (h : (inv.map InvItem.itemName).Nodup) :
    ((saveInventoryItem n q mq ex i inv).map InvItem.itemName).Nodup := by
  rw [saveInventoryItem_names]
  split
  · exact h
  · have hmem : n ∉ inv.map InvItem.itemName := by assumption
    simp [List.nodup_append, h]
    intro x hx hxn
    exact hmem (hxn ▸ List.mem_map_of_mem InvItem.itemName hx)

theorem saveInventoryItem_length (n : Str) (q mq : Int) (ex : Option Str) (i : Nat)
    (inv : List InvItem) (h : n ∈ inv.map InvItem.itemName) :
    (saveInventoryItem n q mq ex i inv).length = inv.length := by
  induction inv with
  | nil => simp at h
  | cons r rest ih =>
    unfold saveInventoryItem
    by_cases hr : r.itemName = n
    · simp [hr]
    · simp only [List.map_cons, List.mem_cons] at h
      rcases h with h | h
      · exact absurd h.symm hr
      · simp [hr, ih h]

theorem saveInventoryItem_find (n : Str) (q mq : Int) (ex : Option Str) (i : Nat)
    (inv : List InvItem) (r : InvItem) (h : findByName n inv = some r) :
    findByName n (saveInventoryItem n q mq ex i inv) = some ⟨r.id, r.itemName, q, mq, ex⟩ := by
  induction inv with
  | nil => simp [findByName] at h
  | cons a rest ih =>
    by_cases ha : a.itemName = n
    · have hfind : findByName n (a :: rest) = some a := by
        unfold findByName
        rw [List.find?_cons]
        simp [ha]
      rw [hfind] at h
      injection h with h
      subst h
      show findByName n
        (if a.itemName = n then ⟨a.id, a.itemName, q, mq, ex⟩ :: rest
          else a :: saveInventoryItem n q mq ex i rest) = _
      rw [if_pos ha]
      unfold findByName
      rw [List.find?_cons]
      simp [ha]
    · have hstep : findByName n (a :: rest) = findByName n rest := by
        unfold findByName
        rw [List.find?_cons]
        simp [ha]
      rw [hstep] at h
      show findByName n
        (if a.itemName = n then ⟨a.id, a.itemName, q, mq, ex⟩ :: rest
          else a :: saveInventoryItem n q mq ex i rest) = _
      rw [if_neg ha]
      unfold findByName
      rw [List.find?_cons]
      simp only [ha, decide_False, cond]
      exact ih h

/-! ### Message body lemmas -/

theorem certBody_ne (name certName s1 s2 : Str) (n : Nat) :
    certBodyExpired name certName s1 ≠ certBodyDueSoon name certName s2 n := by
  intro h
  unfold certBodyExpired certBodyDueSoon at h
  simp only [List.append_assoc] at h
  have h2 := congrArg (fun l => l[(certBodyPrefix name certName).length + 1]?) h
  simp only [] at h2
  rw [List.getElem?_append_right (show (certBodyPrefix name certName).length
        ≤ (certBodyPrefix name certName).length + 1 by omega),
    List.getElem?_append_right (show (certBodyPrefix name certName).length
        ≤ (certBodyPrefix name certName).length + 1 by omega)] at h2
  simp only [Nat.add_sub_cancel_left] at h2
  rw [List.getElem?_append_left (show (1 : Nat) < (" expired on ".data).length by decide),
    List.getElem?_append_left (show (1 : Nat) < (" will expire on ".data).length by decide)] at h2
  exact absurd h2 (by decide)

/-! ### Status characterizations -/

theorem certStatusOfDelta_eq_expired (δ : Int) : certStatusOfDelta δ = .expired ↔ δ < 0 := by
  unfold certStatusOfDelta
  split
  · simp_all
  · split <;> simp_all <;> omega

theorem certStatusOfDelta_eq_dueSoon (δ : Int) :
    certStatusOfDelta δ = .dueSoon ↔ 0 ≤ δ ∧ δ ≤ 60 := by
  unfold certStatusOfDelta
  split
  · simp_all <;> omega
  · split <;> simp_all <;> omega

theorem certStatusOfDelta_eq_valid (δ : Int) : certStatusOfDelta δ = .valid ↔ 60 < δ := by
  unfold certStatusOfDelta
  split
  · simp_all <;> omega
  · split <;> simp_all <;> omega

theorem parse_implies_not_empty {s : Str} {e : Date} (h : parseDate s = some e) :
    s.isEmpty = false := by
  cases s
  · simp [parseDate, splitDashes] at h
  · rfl

/-! ### Claim theorems -/

/-- Claim C1: for a staff record with a present, parseable certification expiry
`e` and reference date `t` under the default 60-day window, the computed
certification status is Expired iff `e < t`, Due soon iff
`0 ≤ (e - t).days ≤ 60`, and Valid iff `(e - t).days > 60`; the boundary cases
`e = t` and `e` exactly 60 days after `t` classify as Due soon, and 61 days
classifies as Valid. -/
theorem certification_status_thresholds (s : Str) (e t : Date)
    (hparse : parseDate s = some e) :
    (certificationStatus (some s) t = .expired ↔ toDays e < toDays t)
      ∧ (certificationStatus (some s) t = .dueSoon
          ↔ 0 ≤ (toDays e : Int) - (toDays t : Int)
            ∧ (toDays e : Int) - (toDays t : Int) ≤ 60)
      ∧ (certificationStatus (some s) t = .valid
          ↔ 60 < (toDays e : Int) - (toDays t : Int))
      ∧ (toDays e = toDays t → certificationStatus (some s) t = .dueSoon)
      ∧ ((toDays e : Int) - (toDays t : Int) = 60
          → certificationStatus (some s) t = .dueSoon)
      ∧ ((toDays e : Int) - (toDays t : Int) = 61
          → certificationStatus (some s) t = .valid) := by
  have hs := parse_implies_not_empty hparse
  have hred : certificationStatus (some s) t
      = certStatusOfDelta ((toDays e : Int) - (toDays t : Int)) := by
    simp [certificationStatus, hs, hparse]
  rw [hred]
  exact ⟨(certStatusOfDelta_eq_expired _).trans (by omega),
    (certStatusOfDelta_eq_dueSoon _).trans (by omega),
    (certStatusOfDelta_eq_valid _).trans (by omega),
    fun h => (certStatusOfDelta_eq_dueSoon _).mpr (by omega),
    fun h => (certStatusOfDelta_eq_dueSoon _).mpr (by omega),
    fun h => (certStatusOfDelta_eq_valid _).mpr (by omega)⟩

/-- Witness for C1 at the spec's boundary example: an expiry exactly 60 days
after the reference date is classified Due soon. -/
theorem certification_status_thresholds_witness :
    certificationStatus (some "2024-03-01".data) ⟨2024, 1, 1⟩ = .dueSoon :=
  (certification_status_thresholds "2024-03-01".data ⟨2024, 3, 1⟩ ⟨2024, 1, 1⟩
    (by decide)).2.1.mpr (by decide)

/-- Claim C2 counterexample: with quantity 5 ≤ minimum 10 and a present but
unparseable expiry, the code computes Unknown, not the Low Stock the claim's
"otherwise" branch asserts. -/
theorem inventory_status_claim_counterexample :
    inventoryStatus 5 10 (some "2024-02-30".data) ⟨2024, 1, 1⟩ = .unknown
      ∧ InvStatus.unknown ≠ .lowStock ∧ (5 : Int) ≤ 10 := by
  decide

/-- Claim C2 (amended): provided the stored expiry is absent, empty, or
parseable, the status is Expired exactly when a parseable expiry lies strictly
before the reference date (even when quantity > minQuantity), and otherwise it
is Low Stock exactly when quantity ≤ minQuantity and OK exactly when
quantity > minQuantity. -/
theorem inventory_status_amended (qty minQty : Int) (expiry : Option Str) (t : Date)
    (hwf : ExpiryWf expiry) :
    (inventoryStatus qty minQty expiry t = .expired
        ↔ ∃ s e, expiry = some s ∧ parseDate s = some e ∧ toDays e < toDays t)
      ∧ ((¬∃ s e, expiry = some s ∧ parseDate s = some e ∧ toDays e < toDays t) →
          ((inventoryStatus qty minQty expiry t = .lowStock ↔ qty ≤ minQty)
            ∧ (inventoryStatus qty minQty expiry t = .ok ↔ minQty < qty))) := by
  unfold ExpiryWf at hwf
  rcases hex : expiry with _ | s
  · have hbase : inventoryStatus qty minQty none t
        = if qty ≤ minQty then .lowStock else .ok := rfl
    refine ⟨?_, ?_⟩
    · rw [hbase]
      constructor
      · intro hx
        split at hx <;> simp_all
      · rintro ⟨s, e, hcontra, -, -⟩
        exact Option.noConfusion hcontra
    · intro _
      rw [hbase]
      constructor
      · constructor
        · intro hx
          split at hx <;> simp_all
        · intro hq
          rw [if_pos hq]
      · constructor
        · intro hx
          split at hx <;> simp_all <;> omega
        · intro hq
          rw [if_neg (by omega)]
  · rw [hex] at hwf
    rcases hwf with rfl | hp
    · have hbase : inventoryStatus qty minQty (some []) t
          = if qty ≤ minQty then .lowStock else .ok := rfl
      refine ⟨?_, ?_⟩
      · rw [hbase]
        constructor
        · intro hx
          split at hx <;> simp_all
        · rintro ⟨s, e, hcontra, hp, -⟩
          injection hcontra with hcontra
          rw [← hcontra] at hp
          simp [parseDate, splitDashes] at hp
      · intro _
        rw [hbase]
        constructor
        · constructor
          · intro hx
            split at hx <;> simp_all
          · intro hq
            rw [if_pos hq]
        · constructor
          · intro hx
            split at hx <;> simp_all <;> omega
          · intro hq
            rw [if_neg (by omega)]
    · rcases he : parseDate s with _ | e
      · rw [he] at hp
        simp at hp
      · have hse : s.isEmpty = false := parse_implies_not_empty he
        have hred : inventoryStatus qty minQty (some s) t
            = if toDays e < toDays t then .expired
              else if qty ≤ minQty then .lowStock else .ok := by
          unfold inventoryStatus
          simp [hse, he]
        rw [hred]
        by_cases hlt : toDays e < toDays t
        · refine ⟨?_, ?_⟩
          · rw [if_pos hlt]
            simp only [true_iff]
            exact ⟨s, e, rfl, he, hlt⟩
          · intro hcontra
            exact absurd ⟨s, e, rfl, he, hlt⟩ hcontra
        · rw [if_neg hlt]
          refine ⟨?_, ?_⟩
          · constructor
            · intro hx
              split at hx <;> simp_all
            · rintro ⟨s2, e2, heq, hp2, hlt2⟩
              injection heq with heq
              rw [← heq] at hp2
              rw [he] at hp2
              injection hp2 with hp2
              rw [← hp2] at hlt2
              exact absurd hlt2 hlt
          · intro _
            constructor
            · constructor
              · intro hx
                split at hx <;> simp_all
              · intro hq
                rw [if_pos hq]
            · constructor
              · intro hx
                split at hx <;> simp_all <;> omega
              · intro hq
                rw [if_neg (by omega)]

/-- Witness for C2 (amended) at the spec's own example: quantity 5,
minimum 10, expiry in the past — Expired wins over Low Stock. -/
theorem inventory_status_amended_witness :
    ExpiryWf (some "2023-12-31".data)
      ∧ inventoryStatus 5 10 (some "2023-12-31".data) ⟨2024, 1, 1⟩ = .expired :=
  ⟨by decide,
    (inventory_status_amended 5 10 (some "2023-12-31".data) ⟨2024, 1, 1⟩ (by decide)).1.mpr
      ⟨"2023-12-31".data, ⟨2023, 12, 31⟩, rfl, by decide, by decide⟩⟩

set_option maxRecDepth 8000 in
/-- Claim C3 counterexample: a stored expiry of "2024-02-30" (present, below
the 60-day threshold string, but not a parseable date) is counted by the
dashboard's own threshold query yet classified Unknown by the evaluator, so
the two counts differ (1 versus 0). -/
theorem aggregator_count_counterexample :
    dashboardCertDue ⟨2024, 1, 1⟩
        [⟨1, "Ann".data, "ann@unit.example".data, none, some "2024-02-30".data⟩] = 1
      ∧ evaluatorCertDue ⟨2024, 1, 1⟩
        [⟨1, "Ann".data, "ann@unit.example".data, none, some "2024-02-30".data⟩] = 0 := by
  decide

/-- Claim C3 (amended): for a valid reference date whose 60-day horizon stays
within four-digit years, and a staff collection whose stored expiry values are
each absent, empty, or the canonical ISO rendering of a valid date, the
dashboard's threshold-query count equals the number of staff whose evaluator
status is Due soon or Expired. -/
theorem aggregator_matches_evaluator (t : Date) (staffList : List Staff)
    (ht : t.Valid) (h60 : (addDays t 60).y ≤ 9999)
    (hwf : ∀ st ∈ staffList, WfExpiry st) :
    dashboardCertDue t staffList = evaluatorCertDue t staffList :=
  dashboard_evaluator_count ht h60 staffList hwf

set_option maxRecDepth 8000 in
/-- Witness for C3 (amended) on a two-record collection: one canonical
due-soon expiry, one absent expiry. -/
theorem aggregator_matches_evaluator_witness :
    dashboardCertDue ⟨2024, 1, 1⟩
        [⟨1, "Ann".data, "ann@unit.example".data, none, some (renderDate ⟨2024, 3, 1⟩)⟩,
          ⟨2, "Bob".data, "bob@unit.example".data, none, none⟩]
      = evaluatorCertDue ⟨2024, 1, 1⟩
        [⟨1, "Ann".data, "ann@unit.example".data, none, some (renderDate ⟨2024, 3, 1⟩)⟩,
          ⟨2, "Bob".data, "bob@unit.example".data, none, none⟩] :=
  aggregator_matches_evaluator ⟨2024, 1, 1⟩ _ (by decide) (by decide) (by
    intro st hst
    simp only [List.mem_cons, List.not_mem_nil, or_false] at hst
    rcases hst with rfl | rfl
    · exact Or.inr ⟨⟨2024, 3, 1⟩, by decide, by decide, rfl⟩
    · trivial)

/-- Claim C4: the dispatch loop attempts every message in order regardless of
failures, reports the number of successful sends, and collects the
`(recipient, error)` pairs in attempt order; in particular, with three
recipients where only the second fails, two are sent, the single failure names
recipient 2, and all three are attempted. -/
theorem dispatch_isolates_failures :
    (∀ (send : EmailMsg → Option Str) (msgs : List EmailMsg),
        (dispatchLoop send msgs).attempted = msgs
          ∧ (dispatchLoop send msgs).sent = msgs.countP (fun m => (send m).isNone)
          ∧ (dispatchLoop send msgs).failures
              = msgs.filterMap (fun m => (send m).map (fun e => (m.recipient, e))))
      ∧ ((dispatchLoop
            (fun m : EmailMsg => if m.recipient = "r2".data then some "boom".data else none)
            [⟨"r1".data, "s".data, "b1".data⟩, ⟨"r2".data, "s".data, "b2".data⟩,
              ⟨"r3".data, "s".data, "b3".data⟩]).sent = 2
          ∧ (dispatchLoop
              (fun m : EmailMsg => if m.recipient = "r2".data then some "boom".data else none)
              [⟨"r1".data, "s".data, "b1".data⟩, ⟨"r2".data, "s".data, "b2".data⟩,
                ⟨"r3".data, "s".data, "b3".data⟩]).failures = [("r2".data, "boom".data)]
          ∧ (dispatchLoop
              (fun m : EmailMsg => if m.recipient = "r2".data then some "boom".data else none)
              [⟨"r1".data, "s".data, "b1".data⟩, ⟨"r2".data, "s".data, "b2".data⟩,
                ⟨"r3".data, "s".data, "b3".data⟩]).attempted
            = [⟨"r1".data, "s".data, "b1".data⟩, ⟨"r2".data, "s".data, "b2".data⟩,
                ⟨"r3".data, "s".data, "b3".data⟩]) := by
  constructor
  · intro send msgs
    exact ⟨dispatchLoop_attempted send msgs, dispatchLoop_sent send msgs,
      dispatchLoop_failures send msgs⟩
  · decide

/-- Claim C5: when the selection of staff needing contact is empty, both
notification commands return the early "nothing to send" outcome with zero
sent, no failures, and no attempted transport call. -/
theorem empty_selection_no_send (send : EmailMsg → Option Str) (t : Date)
    (staffList : List Staff) (shifts : List Shift)
    (hempty : staffList.filter (certDueSelected t) = [])
    (hempty2 : shiftGroups t shifts staffList = []) :
    notifyDueCertifications send t staffList = .nothingToSend
      ∧ (notifyDueCertifications send t staffList).sentOf = 0
      ∧ (notifyDueCertifications send t staffList).failuresOf = []
      ∧ (notifyDueCertifications send t staffList).attemptedOf = []
      ∧ notifyShifts send t shifts staffList = .nothingToSend
      ∧ (notifyShifts send t shifts staffList).sentOf = 0
      ∧ (notifyShifts send t shifts staffList).failuresOf = []
      ∧ (notifyShifts send t shifts staffList).attemptedOf = [] := by
  have h1 : notifyDueCertifications send t staffList = .nothingToSend := by
    unfold notifyDueCertifications
    simp [hempty]
  have h2 : notifyShifts send t shifts staffList = .nothingToSend := by
    unfold notifyShifts
    simp [hempty2]
  refine ⟨h1, ?_, ?_, ?_, h2, ?_, ?_, ?_⟩ <;> first
    | (rw [h1]; rfl)
    | (rw [h2]; rfl)

set_option maxRecDepth 8000 in
/-- Witness for C5: one staff member with no stored expiry and no shifts —
both selections are empty and both commands return the early outcome. -/
theorem empty_selection_no_send_witness :
    notifyDueCertifications (fun _ => none) ⟨2024, 1, 1⟩
        [⟨1, "Ann".data, "ann@unit.example".data, none, none⟩] = .nothingToSend
      ∧ notifyShifts (fun _ => none) ⟨2024, 1, 1⟩ []
        [⟨1, "Ann".data, "ann@unit.example".data, none, none⟩] = .nothingToSend := by
  have h := empty_selection_no_send (fun _ => none) ⟨2024, 1, 1⟩
    [⟨1, "Ann".data, "ann@unit.example".data, none, none⟩] [] (by decide) (by decide)
  exact ⟨h.1, h.2.2.2.2.1⟩

/-- Claim C6: for a selected staff record whose stored expiry parses to `e`,
the composed reminder carries the expired body (renew immediately) exactly
when `(e - today).days < 0` and otherwise the due-soon body stating the
certification expires in `N = (e - today).days` days (`N = 0` included), and
the two bodies always differ. -/
theorem cert_message_body (t : Date) (st : Staff) (s : Str) (e : Date)
    (hs : st.certExpiry = some s) (hparse : parseDate s = some e) :
    composeCertMsg t st = some ⟨st.email, "Certification Renewal Reminder".data,
        if (toDays e : Int) - (toDays t : Int) < 0
        then certBodyExpired st.name (optStr st.certName) s
        else certBodyDueSoon st.name (optStr st.certName) s
          ((toDays e : Int) - (toDays t : Int)).toNat⟩
      ∧ (∀ name certName s1 s2 n,
          certBodyExpired name certName s1 ≠ certBodyDueSoon name certName s2 n) := by
  constructor
  · have hse := parse_implies_not_empty hparse
    unfold composeCertMsg
    simp only [hs, hse, hparse, Bool.false_eq_true, if_false]
  · exact certBody_ne

set_option maxRecDepth 8000 in
/-- Witness for C6 at the zero-days boundary: expiry equal to the reference
date composes the due-soon body with `N = 0`. -/
theorem cert_message_body_witness :
    composeCertMsg ⟨2024, 1, 1⟩
        ⟨1, "Ann".data, "ann@unit.example".data, some "CPR".data, some "2024-01-01".data⟩
      = some ⟨"ann@unit.example".data, "Certification Renewal Reminder".data,
          certBodyDueSoon "Ann".data "CPR".data "2024-01-01".data 0⟩ := by
  rw [(cert_message_body ⟨2024, 1, 1⟩
    ⟨1, "Ann".data, "ann@unit.example".data, some "CPR".data, some "2024-01-01".data⟩
    "2024-01-01".data ⟨2024, 1, 1⟩ rfl (by decide)).1]
  decide

/-- Claim C7 counterexample: with two in-window shifts stored latest-first,
the single grouped message lists them in stored row order (2024-05-03 before
2024-05-01), not in ascending date order. -/
theorem shift_order_counterexample :
    shiftGroups ⟨2024, 4, 30⟩
        [⟨"2024-05-03".data, "Night".data, 1⟩, ⟨"2024-05-01".data, "Morning".data, 1⟩]
        [⟨1, "Ann".data, "ann@unit.example".data, none, none⟩]
      = [⟨1, "Ann".data, "ann@unit.example".data,
          "2024-05-03 (Night)\n2024-05-01 (Morning)".data⟩]
      ∧ "2024-05-03 (Night)\n2024-05-01 (Morning)".data
          ≠ "2024-05-01 (Morning)\n2024-05-03 (Night)".data := by
  decide

/-- Claim C7 (amended): the grouped query yields exactly one row per staff
member having in-window shifts — its concatenated listing covering all of that
member's in-window shifts, newline-separated, in stored row order (the query
has no ORDER BY, so ascending date order is not guaranteed) — and, with
distinct staff ids, each such member's id appears exactly once. -/
theorem shift_messages_grouped (t : Date) (shifts : List Shift) (staffList : List Staff)
    (hids : (staffList.map Staff.id).Nodup) :
    shiftGroups t shifts staffList
        = (staffList.filter (fun st => !(shiftsFor t shifts st.id).isEmpty)).map
            (fun st => ⟨st.id, st.name, st.email,
              groupConcat ((shiftsFor t shifts st.id).map shiftLine)⟩)
      ∧ ((shiftGroups t shifts staffList).map ShiftGroup.staffId).Nodup
      ∧ (∀ st ∈ staffList, (shiftsFor t shifts st.id).isEmpty = false →
          ((shiftGroups t shifts staffList).map ShiftGroup.staffId).count st.id = 1) := by
  refine ⟨shiftGroups_eq t shifts staffList, shiftGroups_nodup hids, ?_⟩
  intro st hst hq
  have hmem : st.id ∈ (shiftGroups t shifts staffList).map ShiftGroup.staffId := by
    rw [shiftGroups_eq, List.map_map]
    refine List.mem_map.mpr ⟨st, ?_, rfl⟩
    exact List.mem_filter.mpr ⟨hst, by simp [hq]⟩
  exact List.count_eq_one_of_mem (shiftGroups_nodup hids) hmem

/-- Witness for C7 (amended) at the counterexample input: the member with
in-window shifts receives exactly one grouped row. -/
theorem shift_messages_grouped_witness :
    ((shiftGroups ⟨2024, 4, 30⟩
        [⟨"2024-05-03".data, "Night".data, 1⟩, ⟨"2024-05-01".data, "Morning".data, 1⟩]
        [⟨1, "Ann".data, "ann@unit.example".data, none, none⟩]).map
      ShiftGroup.staffId).count 1 = 1 :=
  (shift_messages_grouped ⟨2024, 4, 30⟩
      [⟨"2024-05-03".data, "Night".data, 1⟩, ⟨"2024-05-01".data, "Morning".data, 1⟩]
      [⟨1, "Ann".data, "ann@unit.example".data, none, none⟩] (by decide)).2.2
    ⟨1, "Ann".data, "ann@unit.example".data, none, none⟩ (by decide) (by decide)

/-- Claim C8: the explicit resolve action is idempotent (an already-Resolved
concern stays Resolved), the double-click toggle is an involution on the two
statuses the system ever stores, Open and Resolved are the only statuses either
action produces, and each is reachable from the other. -/
theorem safety_status_machine :
    (∀ s : Str, resolveStatus (resolveStatus s) = resolveStatus s)
      ∧ resolveStatus "Resolved".data = "Resolved".data
      ∧ (∀ s : Str, s = "Open".data ∨ s = "Resolved".data →
          toggleStatus (toggleStatus s) = s)
      ∧ toggleStatus "Open".data = "Resolved".data
      ∧ toggleStatus "Resolved".data = "Open".data
      ∧ (∀ s : Str, toggleStatus s = "Open".data ∨ toggleStatus s = "Resolved".data)
      ∧ (∀ s : Str, resolveStatus s = "Open".data ∨ resolveStatus s = "Resolved".data) := by
  refine ⟨fun s => rfl, rfl, ?_, by decide, by decide, ?_, fun s => Or.inr rfl⟩
  · rintro s (rfl | rfl) <;> decide
  · intro s
    unfold toggleStatus
    split
    · exact Or.inr rfl
    · exact Or.inl rfl

/-- Witness for C8: toggling an Open concern twice returns it to Open. -/
theorem safety_status_machine_witness :
    toggleStatus (toggleStatus "Open".data) = "Open".data :=
  safety_status_machine.2.2.1 "Open".data (Or.inl rfl)

/-- Claim C9: inventory saves are keyed by item name — saving an existing name
updates that record's quantity, minimum and expiry in place (same id, same
table size), a name-unique inventory stays name-unique under any save, and any
sequence of saves from the empty table leaves at most one record per name. -/
theorem inventory_upsert_by_name (n : Str) (q mq : Int) (ex : Option Str) (i : Nat)
    (inv : List InvItem) (r : InvItem) :
    (findByName n inv = some r →
        findByName n (saveInventoryItem n q mq ex i inv)
            = some ⟨r.id, r.itemName, q, mq, ex⟩
          ∧ (saveInventoryItem n q mq ex i inv).length = inv.length)
      ∧ ((inv.map InvItem.itemName).Nodup →
          ((saveInventoryItem n q mq ex i inv).map InvItem.itemName).Nodup)
      ∧ (∀ ops : List SaveOp, ((ops.foldl applySave []).map InvItem.itemName).Nodup) := by
  have hfold : ∀ (ops : List SaveOp) (inv0 : List InvItem),
      (inv0.map InvItem.itemName).Nodup
        → (((ops.foldl applySave inv0)).map InvItem.itemName).Nodup := by
    intro ops
    induction ops with
    | nil => exact fun inv0 h => h
    | cons op rest ih =>
      intro inv0 h
      exact ih _ (saveInventoryItem_nodup h)
  refine ⟨?_, fun h => saveInventoryItem_nodup h, fun ops => hfold ops [] (by simp)⟩
  intro hfind
  have hpred := List.find?_some hfind
  have hmem := List.mem_of_find?_eq_some hfind
  have hname : n ∈ inv.map InvItem.itemName := by
    simp only [decide_eq_true_eq] at hpred
    exact hpred ▸ List.mem_map_of_mem InvItem.itemName hmem
  exact ⟨saveInventoryItem_find n q mq ex i inv r hfind,
    saveInventoryItem_length n q mq ex i inv hname⟩

/-- Witness for C9: saving an existing name updates the stored row in place. -/
theorem inventory_upsert_by_name_witness :
    findByName "mask".data
        (saveInventoryItem "mask".data 7 3 none 99
          [⟨5, "mask".data, 2, 1, some "2024-01-01".data⟩])
      = some ⟨5, "mask".data, 7, 3, none⟩ :=
  ((inventory_upsert_by_name "mask".data 7 3 none 99
      [⟨5, "mask".data, 2, 1, some "2024-01-01".data⟩]
      ⟨5, "mask".data, 2, 1, some "2024-01-01".data⟩).1 (by decide)).1

/-- Claim C10: a present but unparseable inventory expiry yields the Unknown
status — a value outside {OK, Low Stock, Expired} — even when the quantity is
at or below the minimum (Unknown overrides Low Stock). -/
theorem inventory_unknown_status (qty minQty : Int) (s : Str) (t : Date)
    (hne : ¬s = []) (hparse : parseDate s = none) :
    inventoryStatus qty minQty (some s) t = .unknown
      ∧ InvStatus.unknown ≠ .ok
      ∧ InvStatus.unknown ≠ .lowStock
      ∧ InvStatus.unknown ≠ .expired := by
  refine ⟨?_, by decide, by decide, by decide⟩
  have hse : s.isEmpty = false := by
    cases s
    · exact absurd rfl hne
    · rfl
  unfold inventoryStatus
  simp [hse, hparse]

/-- Witness for C10: month 13 does not parse, and the status is Unknown even
with quantity 5 at or below minimum 10. -/
theorem inventory_unknown_status_witness :
    inventoryStatus 5 10 (some "2024-13-05".data) ⟨2024, 1, 1⟩ = .unknown
      ∧ (5 : Int) ≤ 10 :=
  ⟨(inventory_unknown_status 5 10 "2024-13-05".data ⟨2024, 1, 1⟩
      (by decide) (by decide)).1, by decide⟩
